import Mathlib

/-!
Verification of the Factor WASM interpreter-and-GC core
(`src/vm` of JakeChampion/factor) against its natural-language
specification.  Each section embeds the relevant C++ definitions
shallowly in Lean (pure data, explicit state passing) and proves or
refutes the spec's claims about them.
-/

set_option autoImplicit false

namespace FactorVM

/-! ### Object model: tagged cells and heap objects

A `cell` in the VM is a machine word holding either an immediate
(fixnum or the canonical false object `f`) or a tagged pointer to a
heap object.  The tag scheme itself lives in `layouts.hpp`, which is
not part of this tree; following the spec ("low bits hold a tag in
\x7bfixnum, f, heap-pointer-kinds\x7d") we model a tag as an
enumeration and a cell as an immediate or a tagged address. -/

/-- Modelled from the spec: the object-kind tags carried by a cell's
low bits (the numeric bit patterns live in the missing `layouts.hpp`;
only their identities matter to the embedded code). -/
inductive Tag where
  | fixnum
  | fobj
  | array
  | byteArray
  | str
  | quot
  | word
  | wrapper
  | tuple
  | bignum
  | flonum
  | alien
  | dll
  | callstack
  | tupleLayout
  deriving DecidableEq, Repr

/-- Modelled from the spec: a machine cell, either an immediate
(fixnum or the `f` singleton) or a tagged pointer to a heap address. -/
inductive Cell where
  | fix (n : Int)
  | f
  | ptr (t : Tag) (addr : Nat)
  deriving DecidableEq, Repr

/-- Tag of a cell (`TAG(c)` in the source). -/
def tagOf : Cell → Tag
  | .fix _ => .fixnum
  | .f => .fobj
  | .ptr t _ => t

/-- `immediate_p`: fixnums and the false object are immediates and are
never rewritten by the GC. -/
def immediate_p : Cell → Bool
  | .fix _ => true
  | .f => true
  | .ptr _ _ => false

/-- `to_boolean`: everything but `f` is truthy. -/
def to_boolean (c : Cell) : Bool := c ≠ Cell.f

/-- Heap objects, with just the fields the embedded code reads.
`strObj` carries the byte data (abstracted as a `String`) and the
cached hashcode slot; `wordObj` carries name, definition, properties,
subprimitive marker and the `pic_def` slot reused as the handler-id
cache. -/
inductive HObj where
  | arr (elems : List Cell)
  | bytes (data : List Nat)
  | strObj (data : String) (hashcode : Cell)
  | tup (layout : Cell) (slots : List Cell)
  | layoutObj (klass : Cell) (size : Nat) (echelon : Nat)
  | wordObj (name : Cell) (defn : Cell) (props : Cell) (subprimitive : Cell) (picDef : Nat)
  | wrapObj (inner : Cell)
  | quotObj (arrayCell : Cell)
  deriving DecidableEq, Repr

/-- A heap is a list of objects; the address of an object is its index. -/
abbrev Heap : Type := List HObj

/-- Dereference a heap address. -/
def Heap.lookup (h : Heap) (a : Nat) : Option HObj := List.get? h a

/-- `tuple_slot`: raw read of a tuple data slot. -/
def tuple_slot (slots : List Cell) (i : Nat) : Cell := slots.getD i Cell.f

/-- Contents of the string a cell points to, when it is a string. -/
def lookupStr (h : Heap) : Cell → Option String
  | .ptr _ a =>
    match h.lookup a with
    | some (.strObj s _) => some s
    | _ => none
  | _ => none

/-- `word_name_string`: the name string of the word a cell points to. -/
def lookupWordName (h : Heap) : Cell → Option String
  | .ptr _ a =>
    match h.lookup a with
    | some (.wordObj nm _ _ _ _) => lookupStr h nm
    | _ => none
  | _ => none

/-- Class name reached from a tuple's layout cell
(layout → klass word → name string). -/
def layoutClassName (h : Heap) : Cell → Option String
  | .ptr _ a =>
    match h.lookup a with
    | some (.layoutObj klass _ _) => lookupWordName h klass
    | _ => none
  | _ => none

/-- `is_tuple_class` (interpreter.cpp): the tuple's class word has the
given name.  The layout-pointer cache in the source is a pure
memoisation of this comparison and is not modelled. -/
def is_tuple_class (h : Heap) (layout : Cell) (className : String) : Bool :=
  layoutClassName h layout = some className

/-! ### `objects_equal` (interpreter.cpp, the deep `equal?` handler) -/

/-- `strings_equal`: length check then byte comparison. -/
def strings_equal (a b : String) : Bool :=
  if a.length = b.length then a = b else false

/-- `objects_equal` (interpreter.cpp): pointer equality, else tags must
agree; strings compare by bytes, same-layout tombstone tuples compare
by their state slot, everything else is unequal. -/
def objects_equal (h : Heap) (a b : Cell) : Bool :=
  if a = b then true
  else if tagOf a ≠ tagOf b then false
  else
    match tagOf a with
    | .fixnum => false
    | .str =>
      match a, b with
      | .ptr _ sa, .ptr _ sb =>
        match h.lookup sa, h.lookup sb with
        | some (.strObj da _), some (.strObj db _) => strings_equal da db
        | _, _ => false
      | _, _ => false
    | .tuple =>
      match a, b with
      | .ptr _ ta, .ptr _ tb =>
        match h.lookup ta, h.lookup tb with
        | some (.tup la sla), some (.tup lb slb) =>
          if la ≠ lb then false
          else if is_tuple_class h la "tombstone" then
            to_boolean (tuple_slot sla 0) = to_boolean (tuple_slot slb 0)
          else false
        | _, _ => false
      | _, _ => false
    | _ => false

/-! ### The trampoline work stack (interpreter.cpp)

The non-recursive interpreter keeps pending work in a fixed-capacity
global stack of `WorkItem`s; no interpretation function calls another. -/

/-- The work-item variants of the trampoline interpreter
(`WorkType` / `WorkItem` in interpreter.cpp).  `restoreValues` models
the `values[4]` + `count` pair as the list of live entries. -/
inductive WorkItem where
  | quotationContinue (arrayTagged : Cell) (length index : Nat)
  | executeWord (wordTagged : Cell)
  | pushValue (value : Cell)
  | callCallable (value : Cell)
  | restoreValues (values : List Cell)
  | loopContinue (quotation : Cell)
  | whileContinue (pred body : Cell)
  deriving DecidableEq, Repr

/-- `TRAMPOLINE_STACK_CAPACITY = 1024 * 1024` work items. -/
def TRAMPOLINE_STACK_CAPACITY : Nat := 1024 * 1024

/-- `trampoline_push`: fatal error (modelled as `none`) when the stack
already holds `TRAMPOLINE_STACK_CAPACITY` items, otherwise store the
item at the top. -/
def trampoline_push (stack : List WorkItem) (item : WorkItem) : Option (List WorkItem) :=
  if TRAMPOLINE_STACK_CAPACITY ≤ stack.length then none
  else some (stack ++ [item])

/-! ### The GC root scan (`slot_visitor::visit_all_roots`)

`visit_all_roots` walks, in order: the data-root anchors, the callback
owners, the uninitialized-code-block owners, the sampler thread
handles, the special-objects table and the active contexts' stacks,
applying `visit_handle` (fixup on non-immediates) to every cell.
A lambda `visit_trampoline_handle` is defined in the FACTOR_WASM
branch of the source but never invoked, and no other code iterates
`g_trampoline_stack`, so the embedding leaves the trampoline stack
untouched. -/

/-- Root categories of the VM at collection time, including the
trampoline interpreter's pending work stack. -/
structure RootsState where
  dataRoots : List Cell
  callbackOwners : List Cell
  uninitializedOwners : List Cell
  sampleThreads : List Cell
  specialObjects : List Cell
  contextStacks : List (List Cell)
  trampolineStack : List WorkItem
  deriving DecidableEq, Repr

/-- `visit_handle`: immediates are left unchanged, pointers are
rewritten through the collection's fixup. -/
def visit_handle (fixup : Cell → Cell) (c : Cell) : Cell :=
  if immediate_p c then c else fixup c

/-- `slot_visitor::visit_all_roots` (slot_visitor.hpp): data roots,
callback owners, uninitialized-block owners, sample threads, special
objects and context stacks are visited; the trampoline work stack is
not (its helper lambda in the source is dead code). -/
def visit_all_roots (fixup : Cell → Cell) (s : RootsState) : RootsState :=
  { dataRoots := s.dataRoots.map (visit_handle fixup)
    callbackOwners := s.callbackOwners.map (visit_handle fixup)
    uninitializedOwners := s.uninitializedOwners.map (visit_handle fixup)
    sampleThreads := s.sampleThreads.map (visit_handle fixup)
    specialObjects := s.specialObjects.map (visit_handle fixup)
    contextStacks := s.contextStacks.map (fun st => st.map (visit_handle fixup))
    trampolineStack := s.trampolineStack }

/-! ### Concrete states used by the claims about the root scan -/

/-- A fixup that moves the heap array at address 5 to address 9,
standing for a copying collection that relocated that object. -/
def c1Move : Cell → Cell :=
  fun c => if c = Cell.ptr .array 5 then Cell.ptr .array 9 else c

/-- A root state in which the cell for the array at address 5 is held
both in genuine roots and inside a pending trampoline work item. -/
def c1State : RootsState :=
  { dataRoots := [Cell.ptr .array 5]
    callbackOwners := []
    uninitializedOwners := []
    sampleThreads := []
    specialObjects := [Cell.ptr .array 5]
    contextStacks := [[Cell.ptr .array 5]]
    trampolineStack := [WorkItem.quotationContinue (Cell.ptr .array 5) 3 0,
                        WorkItem.callCallable (Cell.ptr .quot 7)] }

/-- C1: the root scan never visits the trampoline interpreter's pending
work stack — `visit_all_roots` rewrites every other root category but
returns the work items unchanged, so after a collection that moves the
array at address 5 to address 9, the pending `QUOTATION_CONTINUE` item
still holds the stale pointer while the genuine roots were rewritten.
This refutes the claim that every cell stored in a pending work item is
rewritten when a collection moves the object it refers to. -/
theorem claim_C1_trampoline_stack_not_scanned :
    (∀ (fixup : Cell → Cell) (s : RootsState),
        (visit_all_roots fixup s).trampolineStack = s.trampolineStack) ∧
    (visit_all_roots c1Move c1State).dataRoots = [Cell.ptr .array 9] ∧
    (visit_all_roots c1Move c1State).specialObjects = [Cell.ptr .array 9] ∧
    (visit_all_roots c1Move c1State).contextStacks = [[Cell.ptr .array 9]] ∧
    (visit_all_roots c1Move c1State).trampolineStack
      = [WorkItem.quotationContinue (Cell.ptr .array 5) 3 0,
         WorkItem.callCallable (Cell.ptr .quot 7)] :=
  ⟨fun _ _ => rfl, by decide, by decide, by decide, by decide⟩

/-! ### C7: the `equal?` handler on clones -/

/-- Heap holding pairs of distinct but structurally identical objects:
two arrays (0,1), two byte-arrays (2,3), a tuple class "point" with
layout at 6, two identical point tuples (7,8), and two identical
strings (9,10). -/
def c7Heap : Heap :=
  [HObj.arr [Cell.fix 1, Cell.f],
   HObj.arr [Cell.fix 1, Cell.f],
   HObj.bytes [7, 8],
   HObj.bytes [7, 8],
   HObj.strObj "point" Cell.f,
   HObj.wordObj (Cell.ptr .str 4) Cell.f Cell.f Cell.f 0,
   HObj.layoutObj (Cell.ptr .word 5) 2 0,
   HObj.tup (Cell.ptr .tupleLayout 6) [Cell.fix 3],
   HObj.tup (Cell.ptr .tupleLayout 6) [Cell.fix 3],
   HObj.strObj "ab" Cell.f,
   HObj.strObj "ab" Cell.f]

/-- C7 counterexample: `objects_equal` (the `equal?` handler's decision
procedure) answers `false` on distinct heap objects that are
structurally identical arrays, byte-arrays, and (non-tombstone)
tuples, so `equal?(clone(x), x)` fails for those kinds. -/
theorem claim_C7_counterexample :
    c7Heap.lookup 0 = some (HObj.arr [Cell.fix 1, Cell.f]) ∧
    c7Heap.lookup 1 = some (HObj.arr [Cell.fix 1, Cell.f]) ∧
    objects_equal c7Heap (Cell.ptr .array 0) (Cell.ptr .array 1) = false ∧
    c7Heap.lookup 2 = some (HObj.bytes [7, 8]) ∧
    c7Heap.lookup 3 = some (HObj.bytes [7, 8]) ∧
    objects_equal c7Heap (Cell.ptr .byteArray 2) (Cell.ptr .byteArray 3) = false ∧
    c7Heap.lookup 7 = some (HObj.tup (Cell.ptr .tupleLayout 6) [Cell.fix 3]) ∧
    c7Heap.lookup 8 = some (HObj.tup (Cell.ptr .tupleLayout 6) [Cell.fix 3]) ∧
    objects_equal c7Heap (Cell.ptr .tuple 7) (Cell.ptr .tuple 8) = false := by
  decide

/-- C7 amended: the `equal?` handler returns `true` exactly for
pointer-identical cells, for strings with equal byte contents, and for
same-layout tombstone tuples with equal state; distinct arrays,
byte-arrays and non-tombstone tuples always compare `false`, even when
structurally identical. -/
theorem claim_C7_amended :
    (∀ (h : Heap) (a : Cell), objects_equal h a a = true) ∧
    (∀ (h : Heap) (ia ib : Nat) (s : String) (ha hb : Cell),
        h.lookup ia = some (HObj.strObj s ha) →
        h.lookup ib = some (HObj.strObj s hb) →
        objects_equal h (Cell.ptr .str ia) (Cell.ptr .str ib) = true) ∧
    (∀ (h : Heap) (ia ib : Nat), ia ≠ ib →
        objects_equal h (Cell.ptr .array ia) (Cell.ptr .array ib) = false) ∧
    (∀ (h : Heap) (ia ib : Nat), ia ≠ ib →
        objects_equal h (Cell.ptr .byteArray ia) (Cell.ptr .byteArray ib) = false) ∧
    (∀ (h : Heap) (ia ib : Nat) (la : Cell) (sla slb : List Cell),
        ia ≠ ib →
        h.lookup ia = some (HObj.tup la sla) →
        h.lookup ib = some (HObj.tup la slb) →
        is_tuple_class h la "tombstone" = false →
        objects_equal h (Cell.ptr .tuple ia) (Cell.ptr .tuple ib) = false) := by
  refine ⟨?_, ?_, ?_, ?_, ?_⟩
  · intro h a
    simp [objects_equal]
  · intro h ia ib s ha hb h1 h2
    by_cases heq : (Cell.ptr Tag.str ia) = (Cell.ptr Tag.str ib)
    · simp [objects_equal, heq]
    · simp only [objects_equal, if_neg heq, tagOf, ne_eq, not_true_eq_false, if_false]
      rw [h1, h2]
      simp [strings_equal]
  · intro h ia ib hne
    have hcc : (Cell.ptr Tag.array ia) ≠ (Cell.ptr Tag.array ib) := by
      simp [hne]
    simp [objects_equal, hcc, tagOf]
  · intro h ia ib hne
    have hcc : (Cell.ptr Tag.byteArray ia) ≠ (Cell.ptr Tag.byteArray ib) := by
      simp [hne]
    simp [objects_equal, hcc, tagOf]
  · intro h ia ib la sla slb hne h1 h2 htomb
    have heq : (Cell.ptr Tag.tuple ia) ≠ (Cell.ptr Tag.tuple ib) := by
      simp [hne]
    simp only [objects_equal, if_neg heq, tagOf, ne_eq, not_true_eq_false, if_false]
    rw [h1, h2]
    simp [htomb]

/-- Witness for C7 amended: concrete instances of every conjunct,
each obtained by applying `claim_C7_amended` and discharging its
hypotheses at the concrete heap. -/
theorem claim_C7_amended_witness :
    objects_equal c7Heap (Cell.fix 3) (Cell.fix 3) = true ∧
    objects_equal c7Heap (Cell.ptr .str 9) (Cell.ptr .str 10) = true ∧
    objects_equal c7Heap (Cell.ptr .array 0) (Cell.ptr .array 1) = false ∧
    objects_equal c7Heap (Cell.ptr .byteArray 2) (Cell.ptr .byteArray 3) = false ∧
    objects_equal c7Heap (Cell.ptr .tuple 7) (Cell.ptr .tuple 8) = false :=
  ⟨claim_C7_amended.1 c7Heap (Cell.fix 3),
   claim_C7_amended.2.1 c7Heap 9 10 "ab" Cell.f Cell.f rfl rfl,
   claim_C7_amended.2.2.1 c7Heap 0 1 (by decide),
   claim_C7_amended.2.2.2.1 c7Heap 2 3 (by decide),
   claim_C7_amended.2.2.2.2 c7Heap 7 8 (Cell.ptr .tupleLayout 6)
     [Cell.fix 3] [Cell.fix 3] (by decide) rfl rfl (by decide)⟩

/-- C10: the trampoline work stack has fixed capacity 1,048,576 items;
`trampoline_push` stores the item while the depth is below the
capacity, and raises a fatal error (modelled as `none`) instead of
growing once the stack holds exactly the capacity. -/
theorem claim_C10_trampoline_capacity :
    TRAMPOLINE_STACK_CAPACITY = 1048576 ∧
    (∀ (stack : List WorkItem) (item : WorkItem),
        stack.length < TRAMPOLINE_STACK_CAPACITY →
        trampoline_push stack item = some (stack ++ [item]) ∧
        (stack ++ [item]).length ≤ TRAMPOLINE_STACK_CAPACITY) ∧
    (∀ (stack : List WorkItem) (item : WorkItem),
        stack.length = TRAMPOLINE_STACK_CAPACITY →
        trampoline_push stack item = none) := by
  refine ⟨rfl, ?_, ?_⟩
  · intro stack item hlt
    constructor
    · simp [trampoline_push, not_le.mpr hlt]
    · simp [List.length_append]
      omega
  · intro stack item heq
    simp [trampoline_push, heq]

/-- Witness for C10: a push on the empty stack succeeds; a push on a
stack holding exactly 1,048,576 items is refused. -/
theorem claim_C10_witness :
    trampoline_push [] (WorkItem.pushValue Cell.f)
      = some [WorkItem.pushValue Cell.f] ∧
    trampoline_push
      (List.replicate TRAMPOLINE_STACK_CAPACITY (WorkItem.pushValue Cell.f))
      (WorkItem.pushValue Cell.f) = none := by
  constructor
  · have h := (claim_C10_trampoline_capacity.2.1 [] (WorkItem.pushValue Cell.f)
      (by simp [TRAMPOLINE_STACK_CAPACITY])).1
    simpa using h
  · exact claim_C10_trampoline_capacity.2.2 _ _ (by simp)

/-! ### C6: the fixnum addition handler with overflow promotion

`dispatch_by_handler_id` case `HANDLER_FIXNUM_PLUS` (and the identical
`dispatch_subprimitive` case for `fixnum+`/`fixnum+fast`) pops two
fixnums, computes the exact sum in a wider integer, and pushes either
the fixnum or, on overflow, the bignum sum.  `fixnum_max`/`fixnum_min`
come from the missing `layouts.hpp`, so they are parameters here. -/

/-- A numeric stack value for the arithmetic handlers: a fixnum or a
bignum, each abstracted by its exact integer value. -/
inductive NumVal where
  | fixnum (n : Int)
  | bignum (n : Int)
  deriving DecidableEq, Repr

/-- `bignum_maybe_to_fixnum`: demote a bignum back to a fixnum when its
value fits the fixnum range. -/
def bignum_maybe_to_fixnum (fmin fmax n : Int) : NumVal :=
  if fmin ≤ n ∧ n ≤ fmax then NumVal.fixnum n else NumVal.bignum n

/-- The `fixnum+` handler: pop `y` then `x`; if the wide sum leaves the
fixnum range, push the (possibly demoted) bignum sum, else push the
fixnum sum.  `none` models a stack that does not hold two fixnums. -/
def handler_fixnum_plus (fmin fmax : Int) (stack : List NumVal) : Option (List NumVal) :=
  match stack with
  | NumVal.fixnum y :: NumVal.fixnum x :: rest =>
    let r := x + y
    if r > fmax ∨ r < fmin then
      some (bignum_maybe_to_fixnum fmin fmax (x + y) :: rest)
    else
      some (NumVal.fixnum r :: rest)
  | _ => none

/-- C6: for fixnums `x`, `y`, the addition handler pushes the fixnum of
the exact sum when it lies in fixnum range and the bignum of the exact
sum otherwise. -/
theorem claim_C6_fixnum_plus_promotes :
    ∀ (fmin fmax x y : Int) (rest : List NumVal),
      fmin ≤ x → x ≤ fmax → fmin ≤ y → y ≤ fmax →
      (fmin ≤ x + y ∧ x + y ≤ fmax →
        handler_fixnum_plus fmin fmax (NumVal.fixnum y :: NumVal.fixnum x :: rest)
          = some (NumVal.fixnum (x + y) :: rest)) ∧
      (¬(fmin ≤ x + y ∧ x + y ≤ fmax) →
        handler_fixnum_plus fmin fmax (NumVal.fixnum y :: NumVal.fixnum x :: rest)
          = some (NumVal.bignum (x + y) :: rest)) := by
  intro fmin fmax x y rest _ _ _ _
  constructor
  · intro hin
    have hcond : ¬(x + y > fmax ∨ x + y < fmin) := by omega
    simp [handler_fixnum_plus, hcond]
  · intro hout
    have hcond : x + y > fmax ∨ x + y < fmin := by omega
    have hdem : ¬(fmin ≤ x + y ∧ x + y ≤ fmax) := hout
    simp [handler_fixnum_plus, hcond, bignum_maybe_to_fixnum, hdem]

/-- Witness for C6, at the 32-bit WASM fixnum range: adding
`fixnum_max = 2^27 - 1` and `1` on an empty stack leaves a value whose
constructor (tag) is `bignum` and whose value is `fixnum_max + 1`;
an in-range addition stays a fixnum. -/
theorem claim_C6_witness :
    handler_fixnum_plus (-(2 ^ 27)) (2 ^ 27 - 1)
        [NumVal.fixnum 1, NumVal.fixnum (2 ^ 27 - 1)]
      = some [NumVal.bignum (2 ^ 27)] ∧
    handler_fixnum_plus (-(2 ^ 27)) (2 ^ 27 - 1)
        [NumVal.fixnum 3, NumVal.fixnum 2]
      = some [NumVal.fixnum 5] := by
  constructor
  · have h := (claim_C6_fixnum_plus_promotes (-(2 ^ 27)) (2 ^ 27 - 1)
      (2 ^ 27 - 1) 1 [] (by norm_num) (by norm_num) (by norm_num) (by norm_num)).2
      (by norm_num)
    simpa using h
  · have h := (claim_C6_fixnum_plus_promotes (-(2 ^ 27)) (2 ^ 27 - 1)
      2 3 [] (by norm_num) (by norm_num) (by norm_num) (by norm_num)).1
      (by norm_num)
    simpa using h

/-! ### C4: `factor_vm::general_error` and the error-handler transfer

`general_error` (errors.cpp) anchors its two arguments, sets the
faulting flag, normalizes the stacks, re-enables the GC, and then
either hands a freshly allocated 4-element error object to the
error-handler quotation (via `unwind_native_frames`, which clears the
faulting flag before running the handler) or, when no handler is
installed or a collection is in progress, dies fatally. -/

/-- Modelled from the spec: the kernel-error tag of the 4-element error
object ("a primitive detecting an error builds a 4-tuple
(kernel-error-tag, kind, arg1, arg2)"); the numeric value lives in the
missing `errors.hpp`. -/
def KERNEL_ERROR : Int := 0

/-- The VM state that `general_error` touches. -/
structure ErrVM where
  dataStack : List Cell
  dataRoots : List Cell
  heap : Heap
  faulting_p : Bool
  gc_off : Bool
  current_gc : Bool
  errorHandlerQuot : Cell
  deriving DecidableEq, Repr

/-- `allot_array_4`: allocate a 4-element array, returning its address. -/
def allot_array_4 (h : Heap) (a b c d : Cell) : Nat × Heap :=
  (h.length, h ++ [HObj.arr [a, b, c, d]])

/-- Outcome of `general_error`: transfer to the handler quotation with
an updated VM state, or a fatal abort (diagnostics printed, process
aborted). -/
inductive GeneralErrorResult where
  | handled (vm : ErrVM) (handler : Cell)
  | fatal (error : Nat) (arg1 arg2 : Cell)
  deriving DecidableEq, Repr

/-- `factor_vm::general_error` (errors.cpp).  The `data_root` anchors
for `arg1`/`arg2` are pushed on entry; `ctx->fix_stacks()` clamps raw
stack pointers and is the identity on this always-in-range list model;
`unwind_native_frames` (entry_points.cpp, WASM) resets the callstack,
clears `faulting_p` and then runs the handler quotation. -/
def general_error (vm : ErrVM) (error : Nat) (arg1 arg2 : Cell) : GeneralErrorResult :=
  let vm1 : ErrVM :=
    { vm with
      dataRoots := vm.dataRoots ++ [arg1, arg2]
      faulting_p := true
      gc_off := false }
  if ¬vm1.current_gc ∧ to_boolean vm1.errorHandlerQuot then
    let res := allot_array_4 vm1.heap (Cell.fix KERNEL_ERROR)
      (Cell.fix (Int.ofNat error)) arg1 arg2
    let vm2 : ErrVM :=
      { vm1 with
        heap := res.2
        dataStack := Cell.ptr .array res.1 :: vm1.dataStack
        dataRoots := [] }
    GeneralErrorResult.handled { vm2 with faulting_p := false } vm2.errorHandlerQuot
  else
    GeneralErrorResult.fatal error arg1 arg2

/-- C4: with the error handler installed and no collection running,
`general_error` pushes a fresh 4-element array
`(kernel-error, kind, arg1, arg2)` onto the data stack, clears the
data-root anchors, and transfers to the handler quotation with the
faulting flag cleared (and the GC re-enabled); before the handler is
installed, or during a collection, the error is fatal. -/
theorem claim_C4_general_error :
    ∀ (vm : ErrVM) (error : Nat) (a1 a2 : Cell),
      (vm.current_gc = false → to_boolean vm.errorHandlerQuot = true →
        general_error vm error a1 a2 =
          GeneralErrorResult.handled
            { dataStack := Cell.ptr .array vm.heap.length :: vm.dataStack
              dataRoots := []
              heap := vm.heap ++
                [HObj.arr [Cell.fix KERNEL_ERROR, Cell.fix (Int.ofNat error), a1, a2]]
              faulting_p := false
              gc_off := false
              current_gc := false
              errorHandlerQuot := vm.errorHandlerQuot }
            vm.errorHandlerQuot) ∧
      (vm.current_gc = true ∨ to_boolean vm.errorHandlerQuot = false →
        general_error vm error a1 a2 = GeneralErrorResult.fatal error a1 a2) := by
  intro vm error a1 a2
  constructor
  · intro hgc hh
    simp [general_error, allot_array_4, hgc, hh]
  · intro hbad
    rcases hbad with hgc | hh
    · simp [general_error, hgc]
    · simp [general_error, hh]

/-- Witness for C4: a concrete recoverable error reaches the handler
with the documented state, and the same error during a collection is
fatal. -/
theorem claim_C4_witness :
    general_error
      { dataStack := [Cell.fix 7], dataRoots := [Cell.f], heap := []
        faulting_p := false, gc_off := true, current_gc := false
        errorHandlerQuot := Cell.ptr .quot 3 } 10 Cell.f Cell.f =
      GeneralErrorResult.handled
        { dataStack := [Cell.ptr .array 0, Cell.fix 7]
          dataRoots := []
          heap := [HObj.arr [Cell.fix KERNEL_ERROR, Cell.fix 10, Cell.f, Cell.f]]
          faulting_p := false
          gc_off := false
          current_gc := false
          errorHandlerQuot := Cell.ptr .quot 3 }
        (Cell.ptr .quot 3) ∧
    general_error
      { dataStack := [], dataRoots := [], heap := []
        faulting_p := false, gc_off := false, current_gc := true
        errorHandlerQuot := Cell.ptr .quot 3 } 10 Cell.f Cell.f =
      GeneralErrorResult.fatal 10 Cell.f Cell.f := by
  constructor
  · have h := (claim_C4_general_error
      { dataStack := [Cell.fix 7], dataRoots := [Cell.f], heap := []
        faulting_p := false, gc_off := true, current_gc := false
        errorHandlerQuot := Cell.ptr .quot 3 } 10 Cell.f Cell.f).1 rfl (by decide)
    simpa using h
  · exact (claim_C4_general_error _ 10 Cell.f Cell.f).2 (Or.inl rfl)

/-! ### C3: the WASM GC driver's pre-escalation and termination

On the platform without stack unwinding (`FACTOR_WASM`), `factor_vm::gc`
(gc.cpp) pre-checks sizes before starting a phase: a nursery collection
escalates to aging when the aging space's free space is below the
nursery's occupancy, and an aging collection escalates to full when
tenured fragmentation is high; the switch body then runs exactly once
(the loop ends with an unconditional `break`).  `collect_full`
(full_collector.cpp) afterwards escalates to grow-heap on low memory or
to compaction on high fragmentation. -/

/-- The `gc_op` values, in escalation order. -/
inductive GcOp where
  | collectNursery
  | collectAging
  | collectToTenured
  | collectFull
  | collectCompact
  | collectGrowingDataHeap
  deriving DecidableEq, Repr

/-- Position of an op in the escalation chain. -/
def GcOp.index : GcOp → Nat
  | .collectNursery => 0
  | .collectAging => 1
  | .collectToTenured => 2
  | .collectFull => 3
  | .collectCompact => 4
  | .collectGrowingDataHeap => 5

/-- The heap observations the driver consults, sampled at each decision
point of a single `gc` invocation: sizes for the nursery pre-check, the
fragmentation flag at the pre-check, and the fragmentation / low-memory
flags read after the respective collection phases. -/
structure GcObs where
  nurseryOccupied : Nat
  agingFree : Nat
  highFragPre : Bool
  highFragAfterAging : Bool
  highFragAfterToTenured : Bool
  lowMemAfterFull : Bool
  highFragAfterFull : Bool
  deriving DecidableEq, Repr

/-- `factor_vm::collect_full` (full_collector.cpp): mark and sweep,
then grow the heap on low memory, else compact on high fragmentation.
The bodies of `collect_growing_data_heap` and `collect_compact_impl`
are outside this tree; modelled from the spec they are terminal
("the collector must terminate at or before CollectGrowingDataHeap"). -/
def collect_full_ops (o : GcObs) : List GcOp :=
  GcOp.collectFull ::
    (if o.lowMemAfterFull then [GcOp.collectGrowingDataHeap]
     else if o.highFragAfterFull then [GcOp.collectCompact]
     else [])

/-- The two WASM pre-checks of `factor_vm::gc`, in program order:
nursery escalates to aging when `aging_free < nursery_size`, then aging
escalates to full when fragmentation is high. -/
def gc_pre_escalate (op : GcOp) (o : GcObs) : GcOp :=
  let op1 :=
    if op = GcOp.collectNursery ∧ o.agingFree < o.nurseryOccupied then
      GcOp.collectAging
    else op
  if op1 = GcOp.collectAging ∧ o.highFragPre then GcOp.collectFull else op1

/-- The sequence of collection operations a single WASM `gc` invocation
performs, starting from the requested op (gc.cpp, `FACTOR_WASM`
branch): pre-escalate, run the selected phase once, with the aging and
to-tenured phases re-running as a full collection on high
fragmentation. -/
def gc_ops (op : GcOp) (o : GcObs) : List GcOp :=
  match gc_pre_escalate op o with
  | .collectNursery => [GcOp.collectNursery]
  | .collectAging =>
    GcOp.collectAging ::
      (if o.highFragAfterAging then collect_full_ops o else [])
  | .collectToTenured =>
    GcOp.collectToTenured ::
      (if o.highFragAfterToTenured then collect_full_ops o else [])
  | .collectFull => collect_full_ops o
  | .collectCompact => [GcOp.collectCompact]
  | .collectGrowingDataHeap => [GcOp.collectGrowingDataHeap]

/-- C3: the WASM driver pre-escalates nursery→aging exactly when the
aging space's free space is below the nursery's occupied space (and
further to full when fragmentation is already high), pre-escalates
aging→full exactly when fragmentation is high, and every invocation
performs a finite, strictly escalating, nonempty chain of operations,
which therefore finishes at or before `CollectGrowingDataHeap`. -/
theorem claim_C3_gc_escalation :
    (∀ o : GcObs, o.agingFree < o.nurseryOccupied →
      gc_pre_escalate GcOp.collectNursery o =
        (if o.highFragPre then GcOp.collectFull else GcOp.collectAging)) ∧
    (∀ o : GcObs, ¬ o.agingFree < o.nurseryOccupied →
      gc_pre_escalate GcOp.collectNursery o = GcOp.collectNursery) ∧
    (∀ o : GcObs,
      gc_pre_escalate GcOp.collectAging o =
        (if o.highFragPre then GcOp.collectFull else GcOp.collectAging)) ∧
    (∀ (op : GcOp) (o : GcObs),
      gc_ops op o ≠ [] ∧
      List.Chain' (fun a b => a.index < b.index) (gc_ops op o) ∧
      ∀ x ∈ gc_ops op o, x.index ≤ GcOp.collectGrowingDataHeap.index) := by
  refine ⟨?_, ?_, ?_, ?_⟩
  · intro o hlt
    by_cases hf : o.highFragPre <;> simp [gc_pre_escalate, hlt, hf]
  · intro o hge
    simp [gc_pre_escalate, hge]
  · intro o
    by_cases hf : o.highFragPre <;> simp [gc_pre_escalate, hf]
  · intro op o
    have hcfo : ∀ o' : GcObs, collect_full_ops o' ≠ [] ∧
        List.Chain' (fun a b => a.index < b.index) (collect_full_ops o') ∧
        ∀ x ∈ collect_full_ops o', x.index ≤ GcOp.collectGrowingDataHeap.index := by
      intro o'
      unfold collect_full_ops
      split_ifs <;>
        simp [List.chain'_cons, GcOp.index, List.forall_mem_cons]
    have hcons : ∀ (a : GcOp) (o' : GcObs), a.index < 3 → a.index ≤ 5 →
        (a :: collect_full_ops o') ≠ [] ∧
        List.Chain' (fun x y => x.index < y.index) (a :: collect_full_ops o') ∧
        ∀ x ∈ a :: collect_full_ops o',
          x.index ≤ GcOp.collectGrowingDataHeap.index := by
      intro a o' h3 h5
      refine ⟨by simp, ?_, ?_⟩
      · refine List.Chain'.cons' (hcfo o').2.1 ?_
        intro b hb
        have hb' : b = GcOp.collectFull := by
          have hb2 := hb
          simp [collect_full_ops] at hb2
          exact hb2.symm
        simpa [hb', GcOp.index] using h3
      · intro x hx
        rcases List.mem_cons.mp hx with hx | hx
        · simpa [hx] using h5
        · exact (hcfo o').2.2 x hx
    have hsingle : ∀ a : GcOp, ([a] : List GcOp) ≠ [] ∧
        List.Chain' (fun x y => x.index < y.index) [a] ∧
        ∀ x ∈ [a], x.index ≤ GcOp.collectGrowingDataHeap.index := by
      intro a
      refine ⟨by simp, by simp, ?_⟩
      intro x hx
      have hx' : x = a := by simpa using hx
      cases a <;> simp [hx', GcOp.index]
    cases op with
    | collectNursery =>
      by_cases hlt : o.agingFree < o.nurseryOccupied
      · by_cases hf : o.highFragPre
        · have heq : gc_ops GcOp.collectNursery o = collect_full_ops o := by
            simp [gc_ops, gc_pre_escalate, hlt, hf]
          rw [heq]; exact hcfo o
        · by_cases ha : o.highFragAfterAging
          · have heq : gc_ops GcOp.collectNursery o
                = GcOp.collectAging :: collect_full_ops o := by
              simp [gc_ops, gc_pre_escalate, hlt, hf, ha]
            rw [heq]; exact hcons GcOp.collectAging o (by decide) (by decide)
          · have heq : gc_ops GcOp.collectNursery o = [GcOp.collectAging] := by
              simp [gc_ops, gc_pre_escalate, hlt, hf, ha]
            rw [heq]; exact hsingle GcOp.collectAging
      · have heq : gc_ops GcOp.collectNursery o = [GcOp.collectNursery] := by
          simp [gc_ops, gc_pre_escalate, hlt]
        rw [heq]; exact hsingle GcOp.collectNursery
    | collectAging =>
      by_cases hf : o.highFragPre
      · have heq : gc_ops GcOp.collectAging o = collect_full_ops o := by
          simp [gc_ops, gc_pre_escalate, hf]
        rw [heq]; exact hcfo o
      · by_cases ha : o.highFragAfterAging
        · have heq : gc_ops GcOp.collectAging o
              = GcOp.collectAging :: collect_full_ops o := by
            simp [gc_ops, gc_pre_escalate, hf, ha]
          rw [heq]; exact hcons GcOp.collectAging o (by decide) (by decide)
        · have heq : gc_ops GcOp.collectAging o = [GcOp.collectAging] := by
            simp [gc_ops, gc_pre_escalate, hf, ha]
          rw [heq]; exact hsingle GcOp.collectAging
    | collectToTenured =>
      by_cases ht : o.highFragAfterToTenured
      · have heq : gc_ops GcOp.collectToTenured o
            = GcOp.collectToTenured :: collect_full_ops o := by
          simp [gc_ops, gc_pre_escalate, ht]
        rw [heq]; exact hcons GcOp.collectToTenured o (by decide) (by decide)
      · have heq : gc_ops GcOp.collectToTenured o = [GcOp.collectToTenured] := by
          simp [gc_ops, gc_pre_escalate, ht]
        rw [heq]; exact hsingle GcOp.collectToTenured
    | collectFull =>
      have heq : gc_ops GcOp.collectFull o = collect_full_ops o := by
        simp [gc_ops, gc_pre_escalate]
      rw [heq]; exact hcfo o
    | collectCompact =>
      have heq : gc_ops GcOp.collectCompact o = [GcOp.collectCompact] := by
        simp [gc_ops, gc_pre_escalate]
      rw [heq]; exact hsingle GcOp.collectCompact
    | collectGrowingDataHeap =>
      have heq : gc_ops GcOp.collectGrowingDataHeap o
          = [GcOp.collectGrowingDataHeap] := by
        simp [gc_ops, gc_pre_escalate]
      rw [heq]; exact hsingle GcOp.collectGrowingDataHeap
/-- Observations with a nursery (10 bytes occupied) that does not fit
the aging space's free 5 bytes, and no fragmentation. -/
def c3ObsA : GcObs :=
  { nurseryOccupied := 10, agingFree := 5, highFragPre := false
    highFragAfterAging := false, highFragAfterToTenured := false
    lowMemAfterFull := false, highFragAfterFull := false }

/-- Observations with ample aging free space. -/
def c3ObsB : GcObs := { c3ObsA with agingFree := 50 }

/-- Observations with high tenured fragmentation at the pre-check. -/
def c3ObsC : GcObs := { c3ObsA with highFragPre := true }

/-- Witness for C3: concrete escalations — nursery→aging when aging
cannot absorb the nursery, no escalation otherwise, aging→full under
high fragmentation — and a concrete op chain staying at or before
grow-heap. -/
theorem claim_C3_witness :
    gc_pre_escalate GcOp.collectNursery c3ObsA = GcOp.collectAging ∧
    gc_pre_escalate GcOp.collectNursery c3ObsB = GcOp.collectNursery ∧
    gc_pre_escalate GcOp.collectAging c3ObsC = GcOp.collectFull ∧
    (∀ x ∈ gc_ops GcOp.collectNursery c3ObsA,
      x.index ≤ GcOp.collectGrowingDataHeap.index) := by
  refine ⟨?_, ?_, ?_, ?_⟩
  · have h := claim_C3_gc_escalation.1 c3ObsA (by decide)
    simpa [c3ObsA] using h
  · exact claim_C3_gc_escalation.2.1 c3ObsB (by decide)
  · have h := claim_C3_gc_escalation.2.2.1 c3ObsC
    simpa [c3ObsC, c3ObsA] using h
  · exact (claim_C3_gc_escalation.2.2.2 GcOp.collectNursery c3ObsA).2.2

/-! ### C5: the `QUOTATION_CONTINUE` element loop

`run_trampoline`'s `QUOTATION_CONTINUE` case (interpreter.cpp) walks a
quotation's element array.  It recognizes the two-element patterns
"byte-array followed by the primitive-call word" (dispatch the named
primitive, advance by two; unknown name is fatal) and "array followed
by the declare word" (skip both); literal tags push themselves,
wrappers push their inner object, words break out of the local loop
after saving a continuation work item, and any other tag is fatal.
Primitives are abstracted by their data-stack effect. -/

/-- Tags treated as self-pushing literals by the element loop. -/
def isLiteralTag : Tag → Bool
  | .fixnum => true
  | .fobj => true
  | .array => true
  | .flonum => true
  | .quot => true
  | .bignum => true
  | .alien => true
  | .tuple => true
  | .byteArray => true
  | .callstack => true
  | .str => true
  | _ => false

/-- Byte-array contents of the object a cell points to. -/
def lookupBytes (h : Heap) : Cell → Option (List Nat)
  | .ptr _ a =>
    match h.lookup a with
    | some (.bytes d) => some d
    | _ => none
  | _ => none

/-- Inner object of the wrapper a cell points to. -/
def lookupWrapped (h : Heap) : Cell → Option Cell
  | .ptr _ a =>
    match h.lookup a with
    | some (.wrapObj inner) => some inner
    | _ => none
  | _ => none

/-- `byte_array_to_string_view`: the primitive name is the byte-array's
contents up to the first NUL. -/
def byte_array_to_name (data : List Nat) : String :=
  String.mk ((data.takeWhile (fun b => b ≠ 0)).map Char.ofNat)

/-- Outcome of processing a quotation's elements: the final data stack
plus the work items pushed (in push order), or one of the two fatal
errors of the loop. -/
inductive QuotOutcome where
  | ok (stack : List Cell) (pending : List WorkItem)
  | fatalUnknownPrimitive (obj : Cell)
  | fatalUnsupported (obj : Cell)
  deriving DecidableEq, Repr

/-- The `QUOTATION_CONTINUE` element loop of `run_trampoline`.
`prims` is the primitive dispatch table (`dispatch_primitive_call`)
abstracted by stack effect; `pw`/`dw` are
`special_objects[JIT_PRIMITIVE_WORD]` / `[JIT_DECLARE_WORD]`;
`arrayTagged`/`totalLen` identify the element array for the
continuation work item; `elems` is the tail of the element array from
`idx` on. -/
def run_quot_elems (prims : String → Option (List Cell → List Cell))
    (pw dw : Cell) (h : Heap) (arrayTagged : Cell) (totalLen : Nat) :
    List Cell → Nat → List Cell → QuotOutcome
  | [], _, stack => QuotOutcome.ok stack []
  | obj :: next :: rest2, idx, stack =>
    if tagOf obj = Tag.byteArray ∧ next = pw then
      match prims (byte_array_to_name ((lookupBytes h obj).getD [])) with
      | some fEff =>
        run_quot_elems prims pw dw h arrayTagged totalLen rest2 (idx + 2) (fEff stack)
      | none => QuotOutcome.fatalUnknownPrimitive obj
    else if tagOf obj = Tag.array ∧ next = dw then
      run_quot_elems prims pw dw h arrayTagged totalLen rest2 (idx + 2) stack
    else if isLiteralTag (tagOf obj) then
      run_quot_elems prims pw dw h arrayTagged totalLen (next :: rest2) (idx + 1)
        (obj :: stack)
    else if tagOf obj = Tag.wrapper then
      run_quot_elems prims pw dw h arrayTagged totalLen (next :: rest2) (idx + 1)
        ((lookupWrapped h obj).getD Cell.f :: stack)
    else if tagOf obj = Tag.word then
      QuotOutcome.ok stack
        [WorkItem.quotationContinue arrayTagged totalLen (idx + 1),
         WorkItem.executeWord obj]
    else QuotOutcome.fatalUnsupported obj
  | [obj], idx, stack =>
    if isLiteralTag (tagOf obj) then
      run_quot_elems prims pw dw h arrayTagged totalLen [] (idx + 1) (obj :: stack)
    else if tagOf obj = Tag.wrapper then
      run_quot_elems prims pw dw h arrayTagged totalLen [] (idx + 1)
        ((lookupWrapped h obj).getD Cell.f :: stack)
    else if tagOf obj = Tag.word then
      QuotOutcome.ok stack [WorkItem.executeWord obj]
    else QuotOutcome.fatalUnsupported obj

/-- C5: in the element loop, a byte-array followed by the primitive
word invokes the primitive named by the byte-array's contents and
advances past both elements; an array followed by the declare word is
skipped entirely; and a primitive name absent from the dispatch table
is a fatal error. -/
theorem claim_C5_primitive_and_declare_patterns :
    ∀ (prims : String → Option (List Cell → List Cell)) (pw dw : Cell)
      (h : Heap) (at_ : Cell) (n : Nat) (ba declArr : Cell)
      (rest stack : List Cell) (fEff : List Cell → List Cell),
      (tagOf ba = Tag.byteArray →
        prims (byte_array_to_name ((lookupBytes h ba).getD [])) = some fEff →
        run_quot_elems prims pw dw h at_ n (ba :: pw :: rest) 0 stack
          = run_quot_elems prims pw dw h at_ n rest 2 (fEff stack)) ∧
      (tagOf declArr = Tag.array →
        run_quot_elems prims pw dw h at_ n (declArr :: dw :: rest) 0 stack
          = run_quot_elems prims pw dw h at_ n rest 2 stack) ∧
      (tagOf ba = Tag.byteArray →
        prims (byte_array_to_name ((lookupBytes h ba).getD [])) = none →
        run_quot_elems prims pw dw h at_ n (ba :: pw :: rest) 0 stack
          = QuotOutcome.fatalUnknownPrimitive ba) := by
  intro prims pw dw h at_ n ba declArr rest stack fEff
  refine ⟨?_, ?_, ?_⟩
  · intro hba hprim
    simp [run_quot_elems, hba, hprim]
  · intro harr
    by_cases hdw : dw = pw
    · simp [run_quot_elems, harr, hdw]
    · simp [run_quot_elems, harr, hdw]
  · intro hba hprim
    simp [run_quot_elems, hba, hprim]

/-- Heap with a byte-array spelling "primitive_drop" at address 0. -/
def c5Heap : Heap :=
  [HObj.bytes [112, 114, 105, 109, 105, 116, 105, 118, 101, 95, 100, 114, 111, 112]]

/-- A one-entry primitive dispatch table: "primitive_drop" pops the
data stack. -/
def c5Prims : String → Option (List Cell → List Cell) :=
  fun s => if s = "primitive_drop" then some List.tail else none

/-- Witness for C5: the byte-array/primitive-word pair runs the named
primitive and the loop finishes past both elements; the array/declare
pair is skipped; an unknown primitive name is the fatal outcome. -/
theorem claim_C5_witness :
    run_quot_elems c5Prims (Cell.ptr .word 100) (Cell.ptr .word 101) c5Heap
        (Cell.ptr .array 5) 2
        [Cell.ptr .byteArray 0, Cell.ptr .word 100] 0 [Cell.fix 1, Cell.fix 2]
      = QuotOutcome.ok [Cell.fix 2] [] ∧
    run_quot_elems c5Prims (Cell.ptr .word 100) (Cell.ptr .word 101) c5Heap
        (Cell.ptr .array 5) 2
        [Cell.ptr .array 9, Cell.ptr .word 101] 0 [Cell.fix 1]
      = QuotOutcome.ok [Cell.fix 1] [] ∧
    run_quot_elems c5Prims (Cell.ptr .word 100) (Cell.ptr .word 101) c5Heap
        (Cell.ptr .array 5) 2
        [Cell.ptr .byteArray 7, Cell.ptr .word 100] 0 []
      = QuotOutcome.fatalUnknownPrimitive (Cell.ptr .byteArray 7) := by
  refine ⟨?_, ?_, ?_⟩
  · have h := (claim_C5_primitive_and_declare_patterns c5Prims
      (Cell.ptr .word 100) (Cell.ptr .word 101) c5Heap (Cell.ptr .array 5) 2
      (Cell.ptr .byteArray 0) Cell.f [] [Cell.fix 1, Cell.fix 2] List.tail).1
      rfl rfl
    exact h.trans rfl
  · have h := (claim_C5_primitive_and_declare_patterns c5Prims
      (Cell.ptr .word 100) (Cell.ptr .word 101) c5Heap (Cell.ptr .array 5) 2
      Cell.f (Cell.ptr .array 9) [] [Cell.fix 1] id).2.1 rfl
    exact h.trans rfl
  · exact (claim_C5_primitive_and_declare_patterns c5Prims
      (Cell.ptr .word 100) (Cell.ptr .word 101) c5Heap (Cell.ptr .array 5) 2
      (Cell.ptr .byteArray 7) Cell.f [] [] id).2.2 rfl rfl

/-! ### C9: the handler-id cache on words

Each word's otherwise-unused `pic_def` slot caches a handler id: the
magic marker `0xFA570000` in the high bits distinguishes "not cached"
from any cached id (including `HANDLER_NONE = 0`, "run the quotation
definition").  The id values below follow the C++ `WasmHandlerId` enum,
which numbers the special-word handlers 1..115 in declaration order and
the subprimitive handlers from `HANDLER_SUBPRIM_BASE = 200`. -/

def WASM_HANDLER_MAGIC : Nat := 0xFA570000

def HANDLER_UNCACHED : Int := -1

def HANDLER_NONE : Int := 0

/-- `get_cached_handler_id`: no magic marker means uncached, otherwise
the low 16 bits hold the id. -/
def get_cached_handler_id (picDef : Nat) : Int :=
  if picDef &&& 0xFFFF0000 ≠ WASM_HANDLER_MAGIC then HANDLER_UNCACHED
  else Int.ofNat (picDef &&& 0xFFFF)

/-- `set_cached_handler_id`: store the magic marker with the id in the
low 16 bits (all stored ids are nonnegative). -/
def set_cached_handler_id (id : Int) : Nat :=
  WASM_HANDLER_MAGIC ||| (id.toNat &&& 0xFFFF)

/-- `get_handler_id_table` (interpreter.cpp): the fixed word-name → id
table, with the enum values made explicit. -/
def handler_id_table : List (String × Nat) :=
  [("set-string-hashcode", 1),
   ("native-string-encoding", 2),
   ("underlying>>", 3), ("underlying>>>", 3), ("object=>underlying>>", 3),
   ("decode-until", 4),
   ("(decode-until)", 5),
   ("rehash-string", 6),
   ("get-datastack", 7),
   ("normalize-path", 8),
   ("native-string>alien", 9),
   ("init-io", 10),
   ("init-stdio", 11),
   ("print", 12),
   ("file-exists?", 13),
   ("(file-reader)", 14),
   ("datastack-for", 15),
   ("recover", 16),
   ("new-sequence", 17),
   ("string-hashcode", 18),
   ("hashcode", 19),
   ("hashcode*", 20),
   ("call-effect", 21), ("call-effect-unsafe", 21),
   ("execute-effect", 22), ("execute-effect-unsafe", 22),
   ("set-nth", 23), ("set-nth-unsafe", 23),
   ("stream-write", 24), ("f=>stream-write", 24),
   ("stream-nl", 25), ("f=>stream-nl", 25),
   (">>props", 26), ("props<<", 26), ("object=>props<<", 26),
   ("<", 27),
   ("<=", 28),
   (">", 29),
   (">=", 30),
   ("integer>fixnum-strict", 31), ("fixnum=>integer>fixnum-strict", 31),
   ("object=>integer>fixnum-strict", 31),
   ("value<<", 32), ("object=>value<<", 32),
   ("value>>", 33), ("value>>>", 33), ("object=>value>>", 33),
   ("wrap", 34),
   ("hash@", 35),
   ("probe", 36),
   ("key@", 37),
   ("(key@)", 38),
   ("at*", 39),
   ("assoc-size", 40),
   ("rehash", 41),
   ("word-prop", 42), ("props>>", 42), ("word=>props>>", 42),
   ("equal?", 43),
   ("call", 44),
   ("(call)", 45),
   ("execute", 46),
   ("(execute)", 47),
   ("dip", 48),
   ("2dip", 49),
   ("3dip", 50),
   ("mega-cache-lookup", 51),
   ("length", 52),
   ("?", 53),
   ("if", 54),
   ("callable?", 55),
   ("box", 56), ("global-box", 56),
   ("curried", 57),
   ("composed", 58),
   ("prepose", 87),
   ("no-method", 59),
   ("unless", 60),
   ("when", 61),
   ("keep", 62),
   ("2keep", 63),
   ("3keep", 64),
   ("bi", 65),
   ("tri", 66),
   ("bi*", 67),
   ("tri*", 68),
   ("bi@", 69),
   ("tri@", 70),
   ("both?", 71),
   ("either?", 72),
   ("loop", 73),
   ("while", 74),
   ("until", 75),
   ("do", 76),
   ("times", 77),
   ("each", 78),
   ("map", 79),
   ("reduce", 80),
   ("filter", 81),
   ("special-object", 88),
   ("OBJ-GLOBAL", 89),
   ("OBJ-CURRENT-THREAD", 90),
   ("context-object", 91),
   ("get-catchstack", 92), ("(get-catchstack)", 92),
   ("global", 95),
   ("t", 96),
   ("CONTEXT-OBJ-CONTEXT", 97),
   ("CONTEXT-OBJ-NAMESTACK", 98),
   ("CONTEXT-OBJ-CATCHSTACK", 99),
   ("get-namestack", 100), ("(get-namestack)", 100),
   ("word?", 103),
   ("=", 104),
   ("or", 106),
   ("and", 107),
   ("not", 108),
   ("tuple", 109),
   ("-", 110),
   ("curry", 83),
   ("2curry", 84),
   ("3curry", 85),
   ("compose", 86),
   ("dup", 200),
   ("dupd", 201),
   ("drop", 202),
   ("nip", 203),
   ("2drop", 204),
   ("2nip", 205),
   ("3drop", 206),
   ("4drop", 207),
   ("2dup", 208),
   ("3dup", 209),
   ("4dup", 210),
   ("over", 211),
   ("2over", 212),
   ("pick", 213),
   ("swap", 214),
   ("swapd", 215),
   ("rot", 216),
   ("-rot", 217),
   ("eq?", 218),
   ("both-fixnums?", 219),
   ("fixnum-bitand", 220),
   ("fixnum-bitor", 221),
   ("fixnum-bitxor", 222),
   ("fixnum-bitnot", 223),
   ("fixnum<", 224),
   ("fixnum<=", 225),
   ("fixnum>", 226),
   ("fixnum>=", 227),
   ("fixnum+", 228), ("fixnum+fast", 228),
   ("fixnum-", 229), ("fixnum-fast", 229),
   ("fixnum*", 230), ("fixnum*fast", 230),
   ("fixnum-mod", 231),
   ("fixnum/i-fast", 232),
   ("fixnum/mod-fast", 233),
   ("fixnum-shift-fast", 234),
   ("drop-locals", 235),
   ("load-local", 236),
   ("get-local", 237),
   ("tag", 238),
   ("slot", 239),
   ("string-nth-fast", 240),
   ("nth-unsafe", 241),
   ("fpu-state", 242),
   ("set-fpu-state", 243),
   ("set-callstack", 244),
   ("c-to-factor", 245), ("unwind-native-frames", 245),
   ("leaf-signal-handler", 245), ("signal-handler", 245),
   ("(set-context)", 246),
   ("(start-context)", 247),
   ("(set-context-and-delete)", 248),
   ("(start-context-and-delete)", 249)]

/-- Table lookup as performed by `lookup_and_cache_handler_id`: the
found id, or `HANDLER_NONE` when the name is absent. -/
def lookup_handler_id (name : String) : Int :=
  match handler_id_table.find? (fun e => e.1 == name) with
  | some e => Int.ofNat e.2
  | none => HANDLER_NONE

/-- `lookup_and_cache_handler_id`: look the word's name up and cache
the result on the word (returning id and new `pic_def`). -/
def lookup_and_cache_handler_id (name : String) : Int × Nat :=
  let id := lookup_handler_id name
  (id, set_cached_handler_id id)

/-- The cache consultation at the start of every word execution
(`EXECUTE_WORD` in `run_trampoline`, and `interpret_word`): use the
cached id, populating the cache on the first execution. -/
def execute_word_cache_step (name : String) (picDef : Nat) : Int × Nat :=
  let cached := get_cached_handler_id picDef
  if cached = HANDLER_UNCACHED then lookup_and_cache_handler_id name
  else (cached, picDef)

/-- The claimed consistency relation between a word's name and its
cache slot: uncached, or caching exactly the table's answer for the
word's name. -/
def cache_consistent (name : String) (picDef : Nat) : Prop :=
  get_cached_handler_id picDef = HANDLER_UNCACHED ∨
  get_cached_handler_id picDef = lookup_handler_id name

/-- A value below `2^16` has no bits in the high mask. -/
theorem low16_and_high_mask (m : Nat) (hm : m < 2 ^ 16) : m &&& 0xFFFF0000 = 0 := by
  apply Nat.eq_of_testBit_eq
  intro i
  rw [Nat.testBit_and]
  simp only [Nat.zero_testBit, Bool.and_eq_false_iff]
  by_cases hi : i < 16
  · right
    interval_cases i <;> decide
  · left
    exact Nat.testBit_lt_two_pow
      (lt_of_lt_of_le hm (Nat.pow_le_pow_right (by norm_num) (le_of_not_lt hi)))

/-- Masking with `0xFFFF` yields a value below `2^16`. -/
theorem mask16_lt (x : Nat) : x &&& 0xFFFF < 2 ^ 16 := by
  have h : (0xFFFF : Nat) = 2 ^ 16 - 1 := by norm_num
  rw [h, Nat.and_pow_two_sub_one_eq_mod]
  exact Nat.mod_lt _ (by norm_num)

/-- The high 16 bits of a cache slot written with the magic marker are
exactly the marker. -/
theorem magic_or_and_high (m : Nat) (hm : m < 2 ^ 16) :
    (WASM_HANDLER_MAGIC ||| m) &&& 0xFFFF0000 = WASM_HANDLER_MAGIC := by
  rw [Nat.and_distrib_right, low16_and_high_mask m hm]
  simp only [Nat.or_zero]
  decide

/-- The low 16 bits of a cache slot written with the magic marker are
exactly the stored id bits. -/
theorem magic_or_and_low (m : Nat) (hm : m < 2 ^ 16) :
    (WASM_HANDLER_MAGIC ||| m) &&& 0xFFFF = m := by
  rw [Nat.and_distrib_right]
  have h : (0xFFFF : Nat) = 2 ^ 16 - 1 := by norm_num
  rw [h, Nat.and_pow_two_sub_one_of_lt_two_pow hm]
  have h0 : WASM_HANDLER_MAGIC &&& 2 ^ 16 - 1 = 0 := by decide
  rw [h0, Nat.zero_or]

/-- Decoding a freshly written cache slot recovers the stored id. -/
theorem get_set_cached_handler_id (id : Int) (h0 : 0 ≤ id) (h1 : id < 65536) :
    get_cached_handler_id (set_cached_handler_id id) = id := by
  have hm : id.toNat &&& 0xFFFF < 2 ^ 16 := mask16_lt _
  have htn : id.toNat < 2 ^ 16 := by omega
  have hmm : id.toNat &&& 0xFFFF = id.toNat := by
    have h : (0xFFFF : Nat) = 2 ^ 16 - 1 := by norm_num
    rw [h, Nat.and_pow_two_sub_one_of_lt_two_pow htn]
  unfold get_cached_handler_id set_cached_handler_id
  rw [magic_or_and_high _ hm]
  simp only [ne_eq, not_true_eq_false, if_false, ite_false]
  rw [magic_or_and_low _ hm, hmm]
  simpa using Int.toNat_of_nonneg h0

set_option maxRecDepth 8192 in
/-- Every id in the handler table is nonnegative and fits 16 bits
(and none of them is `HANDLER_NONE`). -/
theorem handler_id_table_ids_bounded :
    ∀ e ∈ handler_id_table, 0 < e.2 ∧ e.2 < 65536 := by
  decide

/-- The table lookup result always fits the 16-bit cache field. -/
theorem lookup_handler_id_bounds (name : String) :
    0 ≤ lookup_handler_id name ∧ lookup_handler_id name < 65536 := by
  unfold lookup_handler_id
  cases hfind : handler_id_table.find? (fun e => e.1 == name) with
  | none => simp [HANDLER_NONE]
  | some e =>
    have hmem := List.mem_of_find?_eq_some hfind
    have hb := handler_id_table_ids_bounded e hmem
    show 0 ≤ Int.ofNat e.2 ∧ Int.ofNat e.2 < 65536
    rw [Int.ofNat_eq_natCast]
    constructor
    · exact_mod_cast Nat.zero_le _
    · exact_mod_cast hb.2

/-- C9: the cache encoding distinguishes "not cached" (no magic
marker) from "cached none"; decoding recovers any stored 16-bit id;
the cache is populated with the table's answer on the first execution
of a word; the name/cache consistency relation is preserved by the
cache step; and a consistent cached id other than `HANDLER_NONE`
corresponds to a table entry carrying exactly the word's name. -/
theorem claim_C9_handler_id_cache :
    (∀ id : Int, 0 ≤ id → id < 65536 →
        get_cached_handler_id (set_cached_handler_id id) = id) ∧
    (HANDLER_NONE ≠ HANDLER_UNCACHED ∧
      get_cached_handler_id (set_cached_handler_id HANDLER_NONE) = HANDLER_NONE ∧
      ∀ picDef : Nat, picDef &&& 0xFFFF0000 ≠ WASM_HANDLER_MAGIC →
        get_cached_handler_id picDef = HANDLER_UNCACHED) ∧
    (∀ (name : String) (picDef : Nat),
        get_cached_handler_id picDef = HANDLER_UNCACHED →
        execute_word_cache_step name picDef
          = (lookup_handler_id name,
             set_cached_handler_id (lookup_handler_id name)) ∧
        get_cached_handler_id (execute_word_cache_step name picDef).2
          = lookup_handler_id name) ∧
    (∀ (name : String) (picDef : Nat),
        cache_consistent name picDef →
        cache_consistent name (execute_word_cache_step name picDef).2) ∧
    (∀ (name : String) (picDef : Nat),
        cache_consistent name picDef →
        get_cached_handler_id picDef ≠ HANDLER_UNCACHED →
        get_cached_handler_id picDef ≠ HANDLER_NONE →
        ∃ e ∈ handler_id_table,
          e.1 = name ∧ Int.ofNat e.2 = get_cached_handler_id picDef) := by
  have hstep : ∀ (name : String) (picDef : Nat),
      get_cached_handler_id picDef = HANDLER_UNCACHED →
      execute_word_cache_step name picDef
        = (lookup_handler_id name,
           set_cached_handler_id (lookup_handler_id name)) := by
    intro name picDef h
    simp [execute_word_cache_step, h, lookup_and_cache_handler_id]
  have hget : ∀ name : String,
      get_cached_handler_id (set_cached_handler_id (lookup_handler_id name))
        = lookup_handler_id name := by
    intro name
    exact get_set_cached_handler_id _ (lookup_handler_id_bounds name).1
      (lookup_handler_id_bounds name).2
  refine ⟨get_set_cached_handler_id, ⟨by decide, ?_, ?_⟩, ?_, ?_, ?_⟩
  · exact get_set_cached_handler_id HANDLER_NONE (by decide) (by decide)
  · intro picDef h
    simp [get_cached_handler_id, h]
  · intro name picDef h
    exact ⟨hstep name picDef h, by rw [hstep name picDef h]; exact hget name⟩
  · intro name picDef hc
    by_cases hu : get_cached_handler_id picDef = HANDLER_UNCACHED
    · rw [hstep name picDef hu]
      exact Or.inr (hget name)
    · have : execute_word_cache_step name picDef = (get_cached_handler_id picDef, picDef) := by
        simp [execute_word_cache_step, hu]
      rw [this]
      exact hc
  · intro name picDef hc hu hn
    rcases hc with h | h
    · exact absurd h hu
    · rw [h] at hn ⊢
      unfold lookup_handler_id at hn ⊢
      cases hfind : handler_id_table.find? (fun e => e.1 == name) with
      | none =>
        rw [hfind] at hn
        exact absurd rfl hn
      | some e =>
        refine ⟨e, List.mem_of_find?_eq_some hfind, ?_, rfl⟩
        have hp := List.find?_some hfind
        simpa using hp

set_option maxRecDepth 8192 in
/-- Witness for C9: the word `fixnum+fast` starts uncached (`pic_def`
0 lacks the magic marker); its first execution caches the table's id
228 (shared with `fixnum+`), which decodes back out and is consistent;
and caching `HANDLER_NONE` is distinguishable from "uncached". -/
theorem claim_C9_witness :
    get_cached_handler_id 0 = HANDLER_UNCACHED ∧
    execute_word_cache_step "fixnum+fast" 0
      = (228, set_cached_handler_id 228) ∧
    get_cached_handler_id (execute_word_cache_step "fixnum+fast" 0).2 = 228 ∧
    cache_consistent "fixnum+fast" (execute_word_cache_step "fixnum+fast" 0).2 ∧
    get_cached_handler_id (set_cached_handler_id HANDLER_NONE) = HANDLER_NONE := by
  have h0 : get_cached_handler_id 0 = HANDLER_UNCACHED :=
    (claim_C9_handler_id_cache.2.1).2.2 0 (by decide)
  have hlk : lookup_handler_id "fixnum+fast" = 228 := by decide
  have hstep := (claim_C9_handler_id_cache.2.2.1 "fixnum+fast" 0 h0).1
  have hget := (claim_C9_handler_id_cache.2.2.1 "fixnum+fast" 0 h0).2
  refine ⟨h0, ?_, ?_, ?_, (claim_C9_handler_id_cache.2.1).2.1⟩
  · rw [hstep, hlk]
  · rw [hget, hlk]
  · exact claim_C9_handler_id_cache.2.2.2.1 "fixnum+fast" 0 (Or.inl h0)

/-! ### C2: the allocators

`bump_allocator::allot` (bump_allocator.hpp) returns the current
frontier and advances it by the aligned size — it has no out-of-space
check and never returns null.  `free_list_allocator::allot`
(free_list.hpp) searches the size-classed small lists, refills an empty
small bucket by carving a page-sized chunk off a large block, falls
back to the ordered large-block set, and returns `NULL` when no block
fits.  The statistics counters `free_block_count`/`free_space`, which
do not influence allocation decisions, are not modelled. -/

/-- Modelled from the spec: the machine data alignment ("allocations
are aligned to the machine data alignment"); the VM's value, 16 bytes,
lives in the missing `layouts.hpp`. -/
def data_alignment : Nat := 16

/-- `align(size, alignment)` for the power-of-two data alignment:
round up to the next multiple. -/
def align (size alignment : Nat) : Nat :=
  ((size + alignment - 1) / alignment) * alignment

/-- `bump_allocator` (bump_allocator.hpp): a monotonic bump region. -/
structure bump_allocator where
  here : Nat
  start : Nat
  end_ : Nat
  size : Nat
  deriving DecidableEq, Repr

/-- `bump_allocator::allot`: return the frontier, advance it by the
aligned size.  There is no bounds check and no null return. -/
def bump_allocator.allot (s : bump_allocator) (dataSize : Nat) : Nat × bump_allocator :=
  let h := s.here
  (h, { s with here := h + align dataSize data_alignment })

/-- A free block: address and recorded size. -/
structure FreeBlock where
  addr : Nat
  size : Nat
  deriving DecidableEq, Repr

def free_list_count : Nat := 32

def allocation_page_size : Nat := 1024

/-- `free_list_allocator`: the region bounds, the `free_list_count`
size-classed small lists, and the size-ordered large-block multiset
(kept as a size-sorted list; `lower_bound` takes the first fitting
block). -/
structure FreeListState where
  start : Nat
  end_ : Nat
  smallBlocks : List (List FreeBlock)
  largeBlocks : List FreeBlock
  deriving DecidableEq, Repr

/-- Read small bucket `i`. -/
def bucketGet (s : FreeListState) (i : Nat) : List FreeBlock :=
  s.smallBlocks.getD i []

/-- Replace small bucket `i`. -/
def bucketSet (s : FreeListState) (i : Nat) (l : List FreeBlock) : FreeListState :=
  { s with smallBlocks := s.smallBlocks.set i l }

/-- `std::multiset` insert: keep the list sorted by size, inserting
after equal keys. -/
def insertBySize : List FreeBlock → FreeBlock → List FreeBlock
  | [], b => [b]
  | x :: xs, b => if x.size ≤ b.size then x :: insertBySize xs b else b :: x :: xs

/-- `add_to_free_list`: blocks below `free_list_count * data_alignment`
go into the small bucket `size / data_alignment`, larger ones into the
large-block set. -/
def add_to_free_list (s : FreeListState) (b : FreeBlock) : FreeListState :=
  if b.size < free_list_count * data_alignment then
    bucketSet s (b.size / data_alignment)
      (bucketGet s (b.size / data_alignment) ++ [b])
  else
    { s with largeBlocks := insertBySize s.largeBlocks b }

/-- `large_blocks.lower_bound(size)` followed by `erase`: the first
block (in size order) whose size is at least `size`, removed. -/
def lower_bound_large : List FreeBlock → Nat → Option (FreeBlock × List FreeBlock)
  | [], _ => none
  | b :: bs, sz =>
    if sz ≤ b.size then some (b, bs)
    else
      match lower_bound_large bs sz with
      | some (x, rest) => some (x, b :: rest)
      | none => none

/-- `split_free_block`: when the block is larger than requested, carve
the tail off, return it to the free list, and shrink the block. -/
def split_free_block (s : FreeListState) (b : FreeBlock) (size : Nat) :
    FreeBlock × FreeListState :=
  if b.size ≠ size then
    (⟨b.addr, size⟩, add_to_free_list s ⟨b.addr + size, b.size - size⟩)
  else (b, s)

/-- The pieces produced by the bucket-refill loop: `count` same-sized
blocks carved off the front of a large block, in ascending address
order. -/
def carve_pieces (baseAddr pieceSize count : Nat) : List FreeBlock :=
  (List.range count).map (fun i => ⟨baseAddr + i * pieceSize, pieceSize⟩)

/-- The refill loop of `find_free_block`: split a page-sized chunk into
same-sized small blocks and add each to the free list. -/
def carve (s : FreeListState) (baseAddr lbs pieceSize : Nat) : FreeListState :=
  (carve_pieces baseAddr pieceSize ((lbs + pieceSize - 1) / pieceSize)).foldl
    add_to_free_list s

/-- `free_list_allocator::find_free_block`.  For a small size class:
take the last block of the bucket, refilling an empty bucket by
carving up a large block (the source's recursive call lands in the
large-block branch, since the page-rounded size is at least
`allocation_page_size ≥ free_list_count * data_alignment`); for large
sizes, search the large-block set.  `none` is the source's `NULL`. -/
def find_free_block (s : FreeListState) (size : Nat) :
    Option (FreeBlock × FreeListState) :=
  let bucket := size / data_alignment
  if bucket < free_list_count then
    let refill : Option FreeListState :=
      if bucketGet s bucket = [] then
        let lbs := ((allocation_page_size + size - 1) / size) * size
        match lower_bound_large s.largeBlocks lbs with
        | none => none
        | some (lb, rest) =>
          let s1 : FreeListState := { s with largeBlocks := rest }
          let res := split_free_block s1 lb lbs
          some (carve res.2 res.1.addr lbs size)
      else some s
    match refill with
    | none => none
    | some s3 =>
      match (bucketGet s3 bucket).getLast? with
      | none => none
      | some b => some (b, bucketSet s3 bucket (bucketGet s3 bucket).dropLast)
  else
    match lower_bound_large s.largeBlocks size with
    | some (b, rest) => some (b, { s with largeBlocks := rest })
    | none => none

/-- `free_list_allocator::allot`: align the request, find a block,
split off exactly the aligned size; `none` when nothing fits. -/
def free_list_allot (s : FreeListState) (size0 : Nat) :
    Option (Nat × FreeListState) :=
  let size := align size0 data_alignment
  match find_free_block s size with
  | some (b, s1) =>
    let res := split_free_block s1 b size
    some (res.1.addr, res.2)
  | none => none

/-- All blocks currently on the free lists. -/
def freeBlocks (s : FreeListState) : List FreeBlock :=
  s.smallBlocks.flatten ++ s.largeBlocks

/-- Well-formedness of a free-list state: the bucket vector has its
fixed arity, blocks are filed in the bucket of their size class, and
every free block lies inside the managed region. -/
def free_list_wf (s : FreeListState) : Prop :=
  s.smallBlocks.length = free_list_count ∧
  (∀ i : Nat, i < free_list_count →
    ∀ b ∈ bucketGet s i, b.size / data_alignment = i) ∧
  (∀ b ∈ freeBlocks s, s.start ≤ b.addr ∧ b.addr + b.size ≤ s.end_)

/-- A block in a small bucket is on the free lists. -/
theorem mem_bucketGet_mem_freeBlocks (s : FreeListState) (i : Nat) (b : FreeBlock)
    (hb : b ∈ bucketGet s i) : b ∈ freeBlocks s := by
  unfold bucketGet at hb
  rcases Nat.lt_or_ge i s.smallBlocks.length with hi | hi
  · rw [List.getD_eq_getElem?_getD, List.getElem?_eq_getElem hi] at hb
    simp only [Option.getD_some] at hb
    exact List.mem_append.mpr
      (Or.inl (List.mem_flatten_of_mem (List.getElem_mem hi) hb))
  · rw [List.getD_eq_getElem?_getD, List.getElem?_eq_none hi] at hb
    simp at hb

/-- Membership through a multiset insert. -/
theorem mem_insertBySize (l : List FreeBlock) (b x : FreeBlock) :
    x ∈ insertBySize l b ↔ x ∈ l ∨ x = b := by
  induction l with
  | nil => simp [insertBySize]
  | cons y ys ih =>
    unfold insertBySize
    split
    · simp [ih]
      tauto
    · simp
      tauto

/-- Every block on the free lists after `add_to_free_list` was either
there before or is the added block. -/
theorem mem_freeBlocks_add (s : FreeListState) (b x : FreeBlock)
    (hx : x ∈ freeBlocks (add_to_free_list s b)) : x ∈ freeBlocks s ∨ x = b := by
  unfold add_to_free_list at hx
  split at hx
  · unfold freeBlocks bucketSet at hx
    rcases List.mem_append.mp hx with hx | hx
    · rcases List.mem_flatten.mp hx with ⟨l, hl, hxl⟩
      rcases List.mem_or_eq_of_mem_set hl with hl | rfl
      · exact Or.inl (List.mem_append.mpr (Or.inl (List.mem_flatten_of_mem hl hxl)))
      · rcases List.mem_append.mp hxl with hx2 | hx2
        · exact Or.inl (mem_bucketGet_mem_freeBlocks s _ x hx2)
        · simp at hx2
          exact Or.inr hx2
    · exact Or.inl (List.mem_append.mpr (Or.inr hx))
  · unfold freeBlocks at hx ⊢
    rcases List.mem_append.mp hx with hx | hx
    · exact Or.inl (List.mem_append.mpr (Or.inl hx))
    · rcases (mem_insertBySize _ _ _).mp hx with hx2 | hx2
      · exact Or.inl (List.mem_append.mpr (Or.inr hx2))
      · exact Or.inr hx2

/-- `add_to_free_list` keeps the bucket arity. -/
theorem length_add_to_free_list (s : FreeListState) (b : FreeBlock) :
    (add_to_free_list s b).smallBlocks.length = s.smallBlocks.length := by
  unfold add_to_free_list bucketSet
  split <;> simp

/-- `add_to_free_list` keeps blocks filed in the bucket of their size
class. -/
theorem buckets_wf_add (s : FreeListState) (b : FreeBlock)
    (hlen : s.smallBlocks.length = free_list_count)
    (h : ∀ i : Nat, i < free_list_count →
      ∀ x ∈ bucketGet s i, x.size / data_alignment = i) :
    ∀ i : Nat, i < free_list_count →
      ∀ x ∈ bucketGet (add_to_free_list s b) i, x.size / data_alignment = i := by
  intro i hi x hx
  unfold add_to_free_list at hx
  split at hx
  case isTrue hsmall =>
    unfold bucketGet bucketSet at hx
    simp only [List.getD_eq_getElem?_getD] at hx
    by_cases hbi : b.size / data_alignment = i
    · have hilt : i < s.smallBlocks.length := by rw [hlen]; exact hi
      rw [hbi, List.getElem?_set_self hilt] at hx
      simp only [Option.getD_some] at hx
      rcases List.mem_append.mp hx with hx2 | hx2
      · exact h i hi x (by unfold bucketGet; simpa [List.getD_eq_getElem?_getD, hbi] using hx2)
      · simp at hx2
        rw [hx2, hbi]
    · rw [List.getElem?_set_ne hbi] at hx
      exact h i hi x (by unfold bucketGet; simpa [List.getD_eq_getElem?_getD] using hx)
  case isFalse =>
    exact h i hi x hx

/-- Specification of `lower_bound` + `erase` on the large-block set:
the returned block is a member whose size is at least the request, and
the remaining list is made of members. -/
theorem lower_bound_large_spec :
    ∀ (l : List FreeBlock) (sz : Nat) (x : FreeBlock) (rest : List FreeBlock),
      lower_bound_large l sz = some (x, rest) →
      x ∈ l ∧ sz ≤ x.size ∧ ∀ y ∈ rest, y ∈ l := by
  intro l
  induction l with
  | nil => intro sz x rest h; simp [lower_bound_large] at h
  | cons b bs ih =>
    intro sz x rest h
    unfold lower_bound_large at h
    split at h
    case isTrue hsz =>
      simp only [Option.some.injEq, Prod.mk.injEq] at h
      obtain ⟨rfl, rfl⟩ := h
      exact ⟨List.mem_cons_self b bs, hsz, fun y hy => List.mem_cons_of_mem _ hy⟩
    case isFalse hsz =>
      cases hrec : lower_bound_large bs sz with
      | none => rw [hrec] at h; simp at h
      | some p =>
        rw [hrec] at h
        simp only [Option.some.injEq, Prod.mk.injEq] at h
        obtain ⟨rfl, rfl⟩ := h
        obtain ⟨h1, h2, h3⟩ := ih sz p.1 p.2 hrec
        refine ⟨List.mem_cons_of_mem _ h1, h2, ?_⟩
        intro y hy
        rcases List.mem_cons.mp hy with rfl | hy
        · exact List.mem_cons_self _ _
        · exact List.mem_cons_of_mem _ (h3 y hy)

/-- Shape of the carved pieces. -/
theorem mem_carve_pieces (baseAddr pieceSize count : Nat) (x : FreeBlock)
    (hx : x ∈ carve_pieces baseAddr pieceSize count) :
    x.size = pieceSize ∧ ∃ i, i < count ∧ x.addr = baseAddr + i * pieceSize := by
  unfold carve_pieces at hx
  rcases List.mem_map.mp hx with ⟨i, hi, rfl⟩
  exact ⟨rfl, i, List.mem_range.mp hi, rfl⟩

/-- Folding `add_to_free_list` over a piece list keeps the arity and
the bucket filing, and adds only the pieces. -/
theorem fold_add_facts (ps : List FreeBlock) :
    ∀ s : FreeListState,
      s.smallBlocks.length = free_list_count →
      (∀ i : Nat, i < free_list_count →
        ∀ x ∈ bucketGet s i, x.size / data_alignment = i) →
      (ps.foldl add_to_free_list s).smallBlocks.length = free_list_count ∧
      (∀ i : Nat, i < free_list_count →
        ∀ x ∈ bucketGet (ps.foldl add_to_free_list s) i,
          x.size / data_alignment = i) ∧
      (∀ x ∈ freeBlocks (ps.foldl add_to_free_list s),
        x ∈ freeBlocks s ∨ x ∈ ps) := by
  induction ps with
  | nil =>
    intro s hlen hwf
    exact ⟨hlen, hwf, fun x hx => Or.inl hx⟩
  | cons p rest ih =>
    intro s hlen hwf
    have hlen' : (add_to_free_list s p).smallBlocks.length = free_list_count := by
      rw [length_add_to_free_list]; exact hlen
    obtain ⟨l1, l2, l3⟩ := ih (add_to_free_list s p) hlen' (buckets_wf_add s p hlen hwf)
    refine ⟨l1, l2, ?_⟩
    intro x hx
    rcases l3 x hx with hx2 | hx2
    · rcases mem_freeBlocks_add s p x hx2 with h3 | h3
      · exact Or.inl h3
      · exact Or.inr (by simp [h3])
    · exact Or.inr (List.mem_cons_of_mem _ hx2)

/-- The address returned by `split_free_block` is the block's own. -/
theorem split_free_block_addr (s : FreeListState) (b : FreeBlock) (size : Nat) :
    (split_free_block s b size).1.addr = b.addr := by
  unfold split_free_block
  split <;> rfl

/-- `split_free_block` keeps the arity and filing invariants and adds
at most the tail remainder to the free lists. -/
theorem split_free_block_facts (s : FreeListState) (b : FreeBlock) (size : Nat)
    (hlen : s.smallBlocks.length = free_list_count)
    (hwf : ∀ i : Nat, i < free_list_count →
      ∀ x ∈ bucketGet s i, x.size / data_alignment = i) :
    (split_free_block s b size).2.smallBlocks.length = free_list_count ∧
    (∀ i : Nat, i < free_list_count →
      ∀ x ∈ bucketGet (split_free_block s b size).2 i,
        x.size / data_alignment = i) ∧
    (∀ x ∈ freeBlocks (split_free_block s b size).2,
      x ∈ freeBlocks s ∨ x = ⟨b.addr + size, b.size - size⟩) := by
  unfold split_free_block
  split
  · exact ⟨by rw [length_add_to_free_list]; exact hlen,
      buckets_wf_add s _ hlen hwf,
      fun x hx => mem_freeBlocks_add s _ x hx⟩
  · exact ⟨hlen, hwf, fun x hx => Or.inl hx⟩

/-- Core specification of `find_free_block`: any block it hands out
lies inside a block that was on the free lists beforehand, with room
for the whole request. -/
theorem find_free_block_spec (s : FreeListState) (size : Nat) (b : FreeBlock)
    (s' : FreeListState)
    (hlen : s.smallBlocks.length = free_list_count)
    (hbk : ∀ i : Nat, i < free_list_count →
      ∀ x ∈ bucketGet s i, x.size / data_alignment = i)
    (hpos : 0 < size) (hdvd : data_alignment ∣ size)
    (hfind : find_free_block s size = some (b, s')) :
    ∃ b0 ∈ freeBlocks s, b0.addr ≤ b.addr ∧ b.addr + size ≤ b0.addr + b0.size := by
  have hda : 0 < data_alignment := by norm_num [data_alignment]
  have hsize_eq : size / data_alignment * data_alignment = size :=
    Nat.div_mul_cancel hdvd
  simp only [find_free_block] at hfind
  by_cases hbucket : size / data_alignment < free_list_count
  · rw [if_pos hbucket] at hfind
    by_cases hempty : bucketGet s (size / data_alignment) = []
    · rw [if_pos hempty] at hfind
      cases hlb : lower_bound_large s.largeBlocks
          (((allocation_page_size + size - 1) / size) * size) with
      | none =>
        rw [hlb] at hfind
        simp at hfind
      | some p =>
        obtain ⟨lb, rest⟩ := p
        rw [hlb] at hfind
        simp only [] at hfind
        obtain ⟨hlbmem, hlbsz, hrest⟩ := lower_bound_large_spec _ _ _ _ hlb
        have hlbfree : lb ∈ freeBlocks s := List.mem_append.mpr (Or.inr hlbmem)
        -- the intermediate states of the refill path
        have hs1mem : ∀ x ∈ freeBlocks ({ s with largeBlocks := rest } : FreeListState),
            x ∈ freeBlocks s := by
          intro x hx
          rcases List.mem_append.mp hx with hx | hx
          · exact List.mem_append.mpr (Or.inl hx)
          · exact List.mem_append.mpr (Or.inr (hrest x hx))
        have hsplit := split_free_block_facts ({ s with largeBlocks := rest })
          lb (((allocation_page_size + size - 1) / size) * size) hlen hbk
        have hfold := fold_add_facts
          (carve_pieces
            ((split_free_block ({ s with largeBlocks := rest }) lb
              (((allocation_page_size + size - 1) / size) * size)).1.addr)
            size
            ((((allocation_page_size + size - 1) / size) * size + size - 1) / size))
          ((split_free_block ({ s with largeBlocks := rest }) lb
            (((allocation_page_size + size - 1) / size) * size)).2)
          hsplit.1 hsplit.2.1
        rw [show ∀ a c st, carve st a (((allocation_page_size + size - 1) / size) * size) c
            = (carve_pieces a c
                ((((allocation_page_size + size - 1) / size) * size + c - 1) / c)).foldl
                add_to_free_list st from fun _ _ _ => rfl] at hfind
        cases hlast : (bucketGet
            ((carve_pieces
              ((split_free_block ({ s with largeBlocks := rest }) lb
                (((allocation_page_size + size - 1) / size) * size)).1.addr)
              size
              ((((allocation_page_size + size - 1) / size) * size + size - 1) / size)).foldl
              add_to_free_list
              ((split_free_block ({ s with largeBlocks := rest }) lb
                (((allocation_page_size + size - 1) / size) * size)).2))
            (size / data_alignment)).getLast? with
        | none =>
          rw [hlast] at hfind
          simp at hfind
        | some b1 =>
          rw [hlast] at hfind
          simp only [Option.some.injEq, Prod.mk.injEq] at hfind
          obtain ⟨rfl, rfl⟩ := hfind
          have hb1mem := List.mem_of_getLast?_eq_some hlast
          -- the handed-out block is in the requested bucket, so it can hold `size`
          have hb1sz : b1.size / data_alignment = size / data_alignment :=
            hfold.2.1 (size / data_alignment) hbucket b1 hb1mem
          have hsizele : size ≤ b1.size := by
            have h1 : b1.size / data_alignment * data_alignment ≤ b1.size :=
              Nat.div_mul_le_self _ _
            rw [hb1sz, hsize_eq] at h1
            exact h1
          -- where does the block come from?
          rcases hfold.2.2 b1 (mem_bucketGet_mem_freeBlocks _ _ _ hb1mem) with hsrc | hsrc
          · rcases hsplit.2.2 b1 hsrc with hsrc2 | hsrc2
            · exact ⟨b1, hs1mem b1 hsrc2, le_refl _, by omega⟩
            · -- the tail remainder of the carved large block
              refine ⟨lb, hlbfree, ?_, ?_⟩
              · rw [hsrc2]; exact Nat.le_add_right _ _
              · have hbsz : b1.size = lb.size - (((allocation_page_size + size - 1) / size) * size) := by
                  rw [hsrc2]
                have hbaddr : b1.addr = lb.addr + (((allocation_page_size + size - 1) / size) * size) := by
                  rw [hsrc2]
                omega
          · -- one of the freshly carved pieces
            obtain ⟨hpsz, i, hicount, haddr⟩ := mem_carve_pieces _ _ _ _ hsrc
            rw [split_free_block_addr] at haddr
            have hcount : (((allocation_page_size + size - 1) / size) * size + size - 1) / size
                = (allocation_page_size + size - 1) / size := by
              have h1 : (allocation_page_size + size - 1) / size * size + size - 1
                  = size * ((allocation_page_size + size - 1) / size) + (size - 1) := by
                rw [Nat.mul_comm ((allocation_page_size + size - 1) / size) size]
                omega
              have h2 : (size - 1) / size = 0 := Nat.div_eq_of_lt (by omega)
              rw [h1, Nat.mul_add_div hpos, h2]
              rfl
            rw [hcount] at hicount
            refine ⟨lb, hlbfree, ?_, ?_⟩
            · rw [haddr]; exact Nat.le_add_right _ _
            · have h2 : (i + 1) * size ≤ (allocation_page_size + size - 1) / size * size :=
                Nat.mul_le_mul_right _ (by omega)
              have h3 : b1.addr + size = lb.addr + (i + 1) * size := by
                rw [haddr]; ring
              omega
    · rw [if_neg hempty] at hfind
      simp only [] at hfind
      cases hlast : (bucketGet s (size / data_alignment)).getLast? with
      | none =>
        rw [hlast] at hfind
        simp at hfind
      | some b1 =>
        rw [hlast] at hfind
        simp only [Option.some.injEq, Prod.mk.injEq] at hfind
        obtain ⟨rfl, rfl⟩ := hfind
        have hb1mem := List.mem_of_getLast?_eq_some hlast
        have hb1sz : b1.size / data_alignment = size / data_alignment :=
          hbk (size / data_alignment) hbucket b1 hb1mem
        have hsizele : size ≤ b1.size := by
          have h1 : b1.size / data_alignment * data_alignment ≤ b1.size :=
            Nat.div_mul_le_self _ _
          rw [hb1sz, hsize_eq] at h1
          exact h1
        exact ⟨b1, mem_bucketGet_mem_freeBlocks _ _ _ hb1mem, le_refl _, by omega⟩
  · rw [if_neg hbucket] at hfind
    cases hlb : lower_bound_large s.largeBlocks size with
    | none =>
      rw [hlb] at hfind
      simp at hfind
    | some p =>
      obtain ⟨lb, rest⟩ := p
      rw [hlb] at hfind
      simp only [Option.some.injEq, Prod.mk.injEq] at hfind
      obtain ⟨rfl, rfl⟩ := hfind
      obtain ⟨hlbmem, hlbsz, _⟩ := lower_bound_large_spec _ _ _ _ hlb
      exact ⟨lb, List.mem_append.mpr (Or.inr hlbmem), le_refl _, by omega⟩

/-- C2 counterexample: a bump allocator whose region `[100, 164)` is
exhausted (`here = end`).  `allot(16)` does not return null — it
returns the frontier `164`, which sits exactly at the region's end,
and advances the frontier past the end.  This refutes "allot on a
generation returns null when the generation has no space" and "an
out-of-space request never yields a pointer at or past the region's
end" for the bump allocators. -/
theorem claim_C2_counterexample :
    (bump_allocator.allot { here := 164, start := 100, end_ := 164, size := 64 } 16).1
      = 164 ∧
    ({ here := 164, start := 100, end_ := 164, size := 64 } : bump_allocator).end_
      = 164 ∧
    (bump_allocator.allot { here := 164, start := 100, end_ := 164, size := 64 } 16).2.here
      = 180 := by
  refine ⟨rfl, rfl, ?_⟩
  simp [bump_allocator.allot, align, data_alignment]

/-- C2 amended: the bump allocators never return null — `allot`
unconditionally returns the current frontier and advances it by the
aligned size (callers must pre-check `free_space`); only the tenured
free-list `allot` returns null when no block fits, and any block it
does return lies entirely inside a block of the remaining free space
(hence inside the region, strictly below its end). -/
theorem claim_C2_allot_amended :
    (∀ (s : bump_allocator) (n : Nat),
        (bump_allocator.allot s n).1 = s.here ∧
        (bump_allocator.allot s n).2.here = s.here + align n data_alignment) ∧
    (∀ (s : FreeListState) (size0 addr : Nat) (s' : FreeListState),
        free_list_wf s → 0 < size0 →
        free_list_allot s size0 = some (addr, s') →
        ∃ b0 ∈ freeBlocks s, b0.addr ≤ addr ∧
          addr + align size0 data_alignment ≤ b0.addr + b0.size ∧
          s.start ≤ addr ∧ addr + align size0 data_alignment ≤ s.end_ ∧
          addr < s.end_) ∧
    (∀ (s : FreeListState) (size0 : Nat), freeBlocks s = [] →
        free_list_allot s size0 = none) := by
  have hda : 0 < data_alignment := by norm_num [data_alignment]
  refine ⟨fun s n => ⟨rfl, rfl⟩, ?_, ?_⟩
  · intro s size0 addr s' hwf hpos hallot
    obtain ⟨hlen, hbk, hcont⟩ := hwf
    have hdvd : data_alignment ∣ align size0 data_alignment := dvd_mul_left _ _
    have hposal : 0 < align size0 data_alignment := by
      have hq : 0 < (size0 + data_alignment - 1) / data_alignment :=
        Nat.div_pos (by omega) hda
      exact Nat.mul_pos hq hda
    simp only [free_list_allot] at hallot
    cases hfind : find_free_block s (align size0 data_alignment) with
    | none => rw [hfind] at hallot; simp at hallot
    | some p =>
      obtain ⟨b, s1⟩ := p
      rw [hfind] at hallot
      simp only [Option.some.injEq, Prod.mk.injEq] at hallot
      obtain ⟨h1, _⟩ := hallot
      rw [split_free_block_addr] at h1
      obtain ⟨b0, hb0mem, hle1, hle2⟩ :=
        find_free_block_spec s _ b s1 hlen hbk hposal hdvd hfind
      have hreg := hcont b0 hb0mem
      refine ⟨b0, hb0mem, ?_, ?_, ?_, ?_, ?_⟩ <;> omega
  · intro s size0 hempty
    have hparts := List.append_eq_nil.mp hempty
    have hsmall : ∀ i : Nat, bucketGet s i = [] := by
      intro i
      unfold bucketGet
      rcases Nat.lt_or_ge i s.smallBlocks.length with hi | hi
      · rw [List.getD_eq_getElem?_getD, List.getElem?_eq_getElem hi]
        simp only [Option.getD_some]
        exact List.flatten_eq_nil_iff.mp hparts.1 _ (List.getElem_mem hi)
      · rw [List.getD_eq_getElem?_getD, List.getElem?_eq_none hi]
        rfl
    have hfind : find_free_block s (align size0 data_alignment) = none := by
      simp only [find_free_block]
      by_cases hb : align size0 data_alignment / data_alignment < free_list_count
      · rw [if_pos hb, if_pos (hsmall _), hparts.2]
        rfl
      · rw [if_neg hb, hparts.2]
        rfl
    simp only [free_list_allot]
    rw [hfind]

end FactorVM
